import Mathlib

/-!
Braille / English command-line translator (`translator.go`).

A shallow embedding of the translator program: the sentinel errors, the
`Translator` record built by `NewTranslator`, the two classifiers `isBraille` and
`isAlphanumeric`, the two converters `toBraille` and `toEnglish`, the dispatcher
`Translate`, the argument handler `handleParams` and the observable outcome of
`main`.

Modelling conventions.

* A Go `string` is modelled by the sequence of runes that `for _, r := range s`
  yields (U+FFFD for a byte that is not valid UTF-8), that is by a Lean `String`.
* A Go result `(string, error)` is the pair `String × Option String`; an error is
  identified with its message, `none` is `nil`.
* A Go `map[string]string` literal is the list of its key/value pairs.
* `os.Args` is an explicit argument, the program name first.
* The functions of the Go standard library that the program calls
  (`unicode.IsLetter`, `unicode.IsNumber`, `strings.Join`, `strings.TrimSpace`,
  `fmt.Errorf`) are modelled after their library sources.  The two large range
  tables `unicode.Letter` and `unicode.Number`, which only matter for runes above
  U+00FF, are a parameter (`UnicodeTables`).
-/

namespace BrailleTranslator

/-! ## Sentinel errors (translator.go, lines 12-16) -/

def ErrMissingArguments : String := "missing required cli arguments"

def ErrArgumentsNotBraille : String := "the supplied arguments do not match Braille format"

def ErrArgumentsNotAlphanumeric : String := "the supplied arguments are not Alphanumeric"

def ErrArgumentsNotBrailleOrAlphanumeric : String :=
  "the supplied arguments are not Alphanumeric or Braille"

def ErrTokenNotBraille : String := "invalid braille alphabet token"

/-! ## Standard library: package `unicode` -/

/-- Membership of the runes above U+00FF in the range tables `unicode.Letter` and
`unicode.Number` of the Go standard library. -/
structure UnicodeTables where
  Letter : Char → Bool
  Number : Char → Bool

/-- The constant `unicode.MaxLatin1`. -/
def MaxLatin1 : Nat := 0xFF

/-- Runes up to `MaxLatin1` whose entry of the library's `properties` array has a
letter bit: `A`-`Z`, `a`-`z`, U+00AA, U+00B5, U+00BA, U+00C0-U+00D6, U+00D8-U+00F6,
U+00F8-U+00FF. -/
def latin1Letter (n : Nat) : Bool :=
  (0x41 ≤ n && n ≤ 0x5A) || (0x61 ≤ n && n ≤ 0x7A) || n == 0xAA || n == 0xB5 || n == 0xBA ||
    (0xC0 ≤ n && n ≤ 0xD6) || (0xD8 ≤ n && n ≤ 0xF6) || (0xF8 ≤ n && n ≤ 0xFF)

/-- Runes up to `MaxLatin1` whose entry of the library's `properties` array has the
number bit: `0`-`9`, U+00B2, U+00B3, U+00B9, U+00BC-U+00BE. -/
def latin1Number (n : Nat) : Bool :=
  (0x30 ≤ n && n ≤ 0x39) || n == 0xB2 || n == 0xB3 || n == 0xB9 || (0xBC ≤ n && n ≤ 0xBE)

/-- The library function `unicode.IsLetter`: the `properties` array up to
`MaxLatin1`, the range table `Letter` above. -/
def IsLetter (u : UnicodeTables) (r : Char) : Bool :=
  if r.toNat ≤ MaxLatin1 then latin1Letter r.toNat else u.Letter r

/-- The library function `unicode.IsNumber`: the `properties` array up to
`MaxLatin1`, the range table `Number` above. -/
def IsNumber (u : UnicodeTables) (r : Char) : Bool :=
  if r.toNat ≤ MaxLatin1 then latin1Number r.toNat else u.Number r

/-- The library function `unicode.IsSpace`: up to `MaxLatin1` the runes
`\t \n \v \f \r`, space, U+0085 and U+00A0; above, the table `White_Space`
(U+1680, U+2000-U+200A, U+2028, U+2029, U+202F, U+205F, U+3000). -/
def IsSpace (r : Char) : Bool :=
  let n := r.toNat
  if n ≤ MaxLatin1 then
    (0x09 ≤ n && n ≤ 0x0D) || n == 0x20 || n == 0x85 || n == 0xA0
  else
    n == 0x1680 || (0x2000 ≤ n && n ≤ 0x200A) || n == 0x2028 || n == 0x2029 ||
      n == 0x202F || n == 0x205F || n == 0x3000

/-! ## Standard library: package `strings` -/

/-- The library function `strings.Join`. -/
def Join : List String → String → String
  | [], _ => ""
  | [a], _ => a
  | a :: b :: rest, sep => a ++ sep ++ Join (b :: rest) sep

/-- The library function `strings.TrimSpace`: the text without its leading and
trailing white space. -/
def TrimSpace (s : String) : String :=
  String.mk ((s.data.dropWhile IsSpace).reverse.dropWhile IsSpace).reverse

/-- The builtin `len` of a string: its number of bytes. -/
def len (s : String) : Nat := s.utf8ByteSize

/-! ## The translator record (translator.go, lines 18-81) -/

structure Translator where
  text : String
  letterToBrailleMap : List (String × String)
  numberToBrailleMap : List (String × String)

/-- Creates new translator unit. -/
def NewTranslator (text : String) : Translator where
  text := text
  letterToBrailleMap :=
    [ ("CAPITAL_FOLLOWS", ".....O"),
      ("NUMBER_FOLLOWS", ".O.OOO"),
      ("a", "O....."),
      ("b", "O.O..."),
      ("c", "OO...."),
      ("d", "OO.O.."),
      ("e", "O..O.."),
      ("f", "OOO..."),
      ("g", "OOOO.."),
      ("h", "O.OO.."),
      ("i", ".OO..."),
      ("j", ".OOO.."),
      ("k", "O...O."),
      ("l", "O.O.O."),
      ("m", "OO..O."),
      ("n", "OO.OO."),
      ("o", "O..OO."),
      ("p", "OOO.O."),
      ("q", "OOOOO."),
      ("r", "O.OOO."),
      ("s", ".OO.O."),
      ("t", ".OOOO."),
      ("u", "O...OO"),
      ("v", "O.O.OO"),
      ("w", ".OOO.O"),
      ("x", "OO..OO"),
      ("y", "OO.OOO"),
      ("z", "O..OOO"),
      (" ", "......") ]
  numberToBrailleMap :=
    [ ("0", ".OOO.."),
      ("1", "O....."),
      ("2", "O.O..."),
      ("3", "OO...."),
      ("4", "OO.O.."),
      ("5", "O..O.."),
      ("6", "OOO..."),
      ("7", "OOOO.."),
      ("8", "O.OO.."),
      ("9", ".OO...") ]

/-! ## Classifiers (translator.go, lines 83-102) -/

/-- The loop of `isBraille` over the runes of the text. -/
def isBrailleLoop : List Char → Bool
  | [] => true
  | r :: rest => if r ≠ 'O' ∧ r ≠ '.' then false else isBrailleLoop rest

/-- Checks if the provided arguments are Braille, not necessarily valid Braille. -/
def isBraille (t : Translator) : Bool :=
  isBrailleLoop t.text.data

/-- The loop of `isAlphanumeric` over the runes of the text. -/
def isAlphanumericLoop (u : UnicodeTables) : List Char → Bool
  | [] => true
  | r :: rest =>
    if (!IsLetter u r) && (!IsNumber u r) then false else isAlphanumericLoop u rest

/-- Checks if the provided arguments are Alphanumeric. -/
def isAlphanumeric (u : UnicodeTables) (t : Translator) : Bool :=
  isAlphanumericLoop u t.text.data

/-! ## Converters and dispatcher (translator.go, lines 104-128) -/

/-- The method `toBraille`. -/
def toBraille (t : Translator) : String × Option String :=
  if !isBraille t then
    ("", some ("expected Braille input: " ++ ErrArgumentsNotBraille))
  else
    ("braille", none)

/-- The method `toEnglish`. -/
def toEnglish (u : UnicodeTables) (t : Translator) : String × Option String :=
  if !isAlphanumeric u t then
    ("", some ("expected Alphanumeric input: " ++ ErrArgumentsNotAlphanumeric))
  else
    ("english", none)

/-- The method `Translate`. -/
def Translate (u : UnicodeTables) (t : Translator) : String × Option String :=
  if isBraille t then
    toBraille t
  else if isAlphanumeric u t then
    toEnglish u t
  else
    ("", some ("expected Alphanumeric or Braille input: " ++
      ErrArgumentsNotBrailleOrAlphanumeric))

/-- The branch of `Translate` that a text takes. -/
inductive Branch where
  | braille
  | english
  | neither
  deriving DecidableEq

/-- The conditions of `Translate`, read as a classification of the text. -/
def dispatch (u : UnicodeTables) (t : Translator) : Branch :=
  if isBraille t then Branch.braille
  else if isAlphanumeric u t then Branch.english
  else Branch.neither

/-! ## Boundary (translator.go, lines 24-31 and 130-145) -/

/-- Processes arguments and joins them together; `osArgs` is `os.Args`. -/
def handleParams (osArgs : List String) : String × Option String :=
  if osArgs.length < 2 then
    ("", some ErrMissingArguments)
  else
    (TrimSpace (Join (osArgs.drop 1) " "), none)

/-- How a run of the program ends: `log.Fatal...` with a message (without the time
stamp that the logger puts in front), or normally after printing to the standard
output. -/
inductive Outcome where
  | fatal (message : String)
  | printed (stdout : String)
  deriving DecidableEq

/-- The function `main`, as a function of `os.Args`. -/
def main (u : UnicodeTables) (osArgs : List String) : Outcome :=
  match handleParams osArgs with
  | (_, some err) => Outcome.fatal ("invalid args: " ++ err ++ "\n")
  | (text, none) =>
    match Translate u (NewTranslator text) with
    | (_, some err) => Outcome.fatal (err ++ "\n")
    | (convertedText, none) => Outcome.printed (convertedText ++ "\n")

/-- A finite excerpt of the tables `unicode.Letter` and `unicode.Number`, for
evaluating the program on concrete texts: the Greek letters U+03B1-U+03C9 and the
Arabic-Indic digits U+0660-U+0669. -/
def excerptTables : UnicodeTables where
  Letter := fun r => 0x3B1 ≤ r.toNat && r.toNat ≤ 0x3C9
  Number := fun r => 0x660 ≤ r.toNat && r.toNat ≤ 0x669

/-! ## Vocabulary of the properties -/

/-- The rune is one of `A`-`Z`, `a`-`z`. -/
def isAsciiLetter (c : Char) : Bool :=
  (65 ≤ c.toNat && c.toNat ≤ 90) || (97 ≤ c.toNat && c.toNat ≤ 122)

/-- The rune is one of `0`-`9`. -/
def isAsciiDigit (c : Char) : Bool :=
  48 ≤ c.toNat && c.toNat ≤ 57

/-- The rune is one of `a`-`z`. -/
def isLower (c : Char) : Bool :=
  97 ≤ c.toNat && c.toNat ≤ 122

/-- The text has neither a leading nor a trailing space. -/
def noOuterSpace (s : String) : Bool :=
  s.data.head? != some ' ' && s.data.getLast? != some ' '

/-- The round trip of a text: translating it, then translating the result, succeeds
both times and gives the text back. -/
def roundTrips (u : UnicodeTables) (s : String) : Bool :=
  match Translate u (NewTranslator s) with
  | (_, some _) => false
  | (b, none) =>
    match Translate u (NewTranslator b) with
    | (_, some _) => false
    | (e, none) => e == s

/-- The error that `Translate` builds for a text that is neither Braille nor
alphanumeric. -/
def notAlphanumericOrBraille : String :=
  "expected Alphanumeric or Braille input: " ++ ErrArgumentsNotBrailleOrAlphanumeric

/-! ## Vocabulary of the tables and of the argument list -/

/-- The index expression `m[k]` in its comma-ok form: the value stored under the key
`k`, if the map has that key. -/
def mapIndex (m : List (String × String)) (k : String) : Option String :=
  List.lookup k m

/-- The keys of a map. -/
def mapKeys (m : List (String × String)) : List String :=
  m.map Prod.fst

/-- The values of a map. -/
def mapValues (m : List (String × String)) : List String :=
  m.map Prod.snd

/-- The 26 lowercase letters, as keys. -/
def lowercaseKeys : List String :=
  ["a", "b", "c", "d", "e", "f", "g", "h", "i", "j", "k", "l", "m",
   "n", "o", "p", "q", "r", "s", "t", "u", "v", "w", "x", "y", "z"]

/-- The ten decimal digits, as keys. -/
def digitKeys : List String :=
  ["0", "1", "2", "3", "4", "5", "6", "7", "8", "9"]

/-- The key of the `d`-th letter of the alphabet (`a` for 1). -/
def letterKey (d : Nat) : String :=
  String.singleton (Char.ofNat (96 + d))

/-- The key of the decimal digit `d`. -/
def digitKey (d : Nat) : String :=
  String.singleton (Char.ofNat (48 + d))

/-- A well-formed cell: six characters, each `O` or `.`. -/
def isCell (s : String) : Bool :=
  s.data.length == 6 && s.data.all (fun c => c == 'O' || c == '.')

/-- The argument contains a character that is not white space. -/
def hasNonSpace (a : String) : Bool :=
  a.data.any (fun c => !IsSpace c)

/-! ## The classifiers, rune by rune -/

theorem isBrailleLoop_iff (l : List Char) :
    isBrailleLoop l = true ↔ ∀ c ∈ l, c = 'O' ∨ c = '.' := by
  induction l with
  | nil => simp [isBrailleLoop]
  | cons r rest ih =>
    by_cases h : r ≠ 'O' ∧ r ≠ '.'
    · have hr : ¬ (r = 'O' ∨ r = '.') := by
        intro hc
        rcases hc with hc | hc
        · exact h.1 hc
        · exact h.2 hc
      simp [isBrailleLoop, h, hr]
    · have hr : r = 'O' ∨ r = '.' := by
        by_cases h1 : r = 'O'
        · exact Or.inl h1
        · by_cases h2 : r = '.'
          · exact Or.inr h2
          · exact absurd ⟨h1, h2⟩ h
      simp only [isBrailleLoop, if_neg h, ih, List.forall_mem_cons]
      exact ⟨fun hrest => ⟨hr, hrest⟩, fun hall => hall.2⟩

theorem isAlphanumericLoop_iff (u : UnicodeTables) (l : List Char) :
    isAlphanumericLoop u l = true ↔ ∀ c ∈ l, IsLetter u c = true ∨ IsNumber u c = true := by
  induction l with
  | nil => simp [isAlphanumericLoop]
  | cons r rest ih =>
    simp only [isAlphanumericLoop, List.forall_mem_cons]
    cases hl : IsLetter u r <;> cases hn : IsNumber u r <;> simp [ih]

theorem isBraille_iff (t : Translator) :
    isBraille t = true ↔ ∀ c ∈ t.text.data, c = 'O' ∨ c = '.' :=
  isBrailleLoop_iff t.text.data

theorem isAlphanumeric_iff (u : UnicodeTables) (t : Translator) :
    isAlphanumeric u t = true ↔
      ∀ c ∈ t.text.data, IsLetter u c = true ∨ IsNumber u c = true :=
  isAlphanumericLoop_iff u t.text.data

/-! ## The three outcomes of `Translate` -/

theorem Translate_of_braille (u : UnicodeTables) (t : Translator)
    (h : isBraille t = true) : Translate u t = ("braille", none) := by
  simp [Translate, toBraille, h]

theorem Translate_of_alphanumeric (u : UnicodeTables) (t : Translator)
    (hb : isBraille t = false) (ha : isAlphanumeric u t = true) :
    Translate u t = ("english", none) := by
  simp [Translate, toEnglish, hb, ha]

theorem Translate_of_neither (u : UnicodeTables) (t : Translator)
    (hb : isBraille t = false) (ha : isAlphanumeric u t = false) :
    Translate u t = ("", some notAlphanumericOrBraille) := by
  simp [Translate, hb, ha, notAlphanumericOrBraille]

theorem dispatch_braille_iff (u : UnicodeTables) (t : Translator) :
    dispatch u t = Branch.braille ↔ isBraille t = true := by
  unfold dispatch
  cases isBraille t <;> cases isAlphanumeric u t <;> simp

theorem dispatch_english_iff (u : UnicodeTables) (t : Translator) :
    dispatch u t = Branch.english ↔ isBraille t = false ∧ isAlphanumeric u t = true := by
  unfold dispatch
  cases isBraille t <;> cases isAlphanumeric u t <;> simp

theorem dispatch_neither_iff (u : UnicodeTables) (t : Translator) :
    dispatch u t = Branch.neither ↔ isBraille t = false ∧ isAlphanumeric u t = false := by
  unfold dispatch
  cases isBraille t <;> cases isAlphanumeric u t <;> simp

/-- The result of `Translate` is the result of the branch that `dispatch` names. -/
theorem Translate_eq_dispatch (u : UnicodeTables) (t : Translator) :
    Translate u t =
      match dispatch u t with
      | Branch.braille => toBraille t
      | Branch.english => toEnglish u t
      | Branch.neither => ("", some notAlphanumericOrBraille) := by
  unfold Translate dispatch
  cases isBraille t <;> cases isAlphanumeric u t <;> simp [notAlphanumericOrBraille]

/-! ## ASCII runes -/

theorem IsLetter_ascii (u : UnicodeTables) (c : Char) (h : c.toNat < 128) :
    IsLetter u c = isAsciiLetter c := by
  have h255 : c.toNat ≤ MaxLatin1 := by unfold MaxLatin1; omega
  rw [IsLetter, if_pos h255, Bool.eq_iff_iff]
  simp only [latin1Letter, isAsciiLetter, Bool.or_eq_true, Bool.and_eq_true, decide_eq_true_eq,
    beq_iff_eq]
  omega

theorem IsNumber_ascii (u : UnicodeTables) (c : Char) (h : c.toNat < 128) :
    IsNumber u c = isAsciiDigit c := by
  have h255 : c.toNat ≤ MaxLatin1 := by unfold MaxLatin1; omega
  rw [IsNumber, if_pos h255, Bool.eq_iff_iff]
  simp only [latin1Number, isAsciiDigit, Bool.or_eq_true, Bool.and_eq_true, decide_eq_true_eq,
    beq_iff_eq]
  omega

theorem IsLetter_space (u : UnicodeTables) : IsLetter u ' ' = false := rfl

theorem IsNumber_space (u : UnicodeTables) : IsNumber u ' ' = false := rfl

theorem toNat_O : 'O'.toNat = 79 := rfl

theorem toNat_dot : '.'.toNat = 46 := rfl

theorem toNat_space : ' '.toNat = 32 := rfl

/-- A text that contains a space is neither Braille nor alphanumeric. -/
theorem space_not_classified (u : UnicodeTables) (t : Translator)
    (h : ' ' ∈ t.text.data) : isBraille t = false ∧ isAlphanumeric u t = false := by
  constructor
  · rw [← Bool.not_eq_true, isBraille_iff]
    intro hall
    rcases hall ' ' h with hc | hc
    · exact absurd hc (by decide)
    · exact absurd hc (by decide)
  · rw [← Bool.not_eq_true, isAlphanumeric_iff]
    intro hall
    rcases hall ' ' h with hc | hc
    · rw [IsLetter_space] at hc
      exact Bool.noConfusion hc
    · rw [IsNumber_space] at hc
      exact Bool.noConfusion hc

theorem lower_ne_O_dot (c : Char) (h : isLower c = true) : c ≠ 'O' ∧ c ≠ '.' := by
  simp only [isLower, Bool.and_eq_true, decide_eq_true_eq] at h
  constructor
  · intro hc
    rw [hc, toNat_O] at h
    omega
  · intro hc
    rw [hc, toNat_dot] at h
    omega

theorem lower_IsLetter (u : UnicodeTables) (c : Char) (h : isLower c = true) :
    IsLetter u c = true := by
  simp only [isLower, Bool.and_eq_true, decide_eq_true_eq] at h
  rw [IsLetter_ascii u c (by omega)]
  simp only [isAsciiLetter, Bool.or_eq_true, Bool.and_eq_true, decide_eq_true_eq]
  omega

theorem asciiLetter_IsLetter (u : UnicodeTables) (c : Char) (h : isAsciiLetter c = true) :
    IsLetter u c = true := by
  have hlt : c.toNat < 128 := by
    simp only [isAsciiLetter, Bool.or_eq_true, Bool.and_eq_true, decide_eq_true_eq] at h
    omega
  rw [IsLetter_ascii u c hlt, h]

theorem asciiDigit_IsNumber (u : UnicodeTables) (c : Char) (h : isAsciiDigit c = true) :
    IsNumber u c = true := by
  have hlt : c.toNat < 128 := by
    simp only [isAsciiDigit, Bool.and_eq_true, decide_eq_true_eq] at h
    omega
  rw [IsNumber_ascii u c hlt, h]

theorem dot_not_alphanumeric (u : UnicodeTables) :
    ¬ (IsLetter u '.' = true ∨ IsNumber u '.' = true) := by
  intro h
  rcases h with h | h
  · exact Bool.noConfusion (show false = true from h)
  · exact Bool.noConfusion (show false = true from h)

/-- An alphanumeric text is Braille exactly when all its runes are `O`. -/
theorem alphanumeric_not_braille_iff (u : UnicodeTables) (t : Translator)
    (ha : isAlphanumeric u t = true) :
    isBraille t = false ↔ ∃ c ∈ t.text.data, c ≠ 'O' := by
  rw [← Bool.not_eq_true, isBraille_iff]
  rw [isAlphanumeric_iff] at ha
  constructor
  · intro hnot
    by_contra hex
    apply hnot
    intro c hc
    left
    by_contra hne
    exact hex ⟨c, hc, hne⟩
  · rintro ⟨c, hc, hne⟩ hall
    rcases hall c hc with h | h
    · exact hne h
    · have hd := ha c hc
      rw [h] at hd
      exact dot_not_alphanumeric u hd

theorem handleParams_cons (prog : String) (args : List String) (h : args ≠ []) :
    handleParams (prog :: args) = (TrimSpace (Join args " "), none) := by
  cases args with
  | nil => exact absurd rfl h
  | cons a rest => simp [handleParams]

/-! ## Encoding and decoding -/

/-- C1: on the single-character texts "a", "A", "1" and "0" the method `Translate`
takes the alphanumeric branch and returns the fixed word "english" without error,
not the cells "O.....", ".....OO.....", ".O.OOOO....." and ".O.OOO.OOO..". -/
theorem Translate_single_character (u : UnicodeTables) :
    (Translate u (NewTranslator "a") = ("english", none) ∧
      (Translate u (NewTranslator "a")).1 ≠ "O.....") ∧
    (Translate u (NewTranslator "A") = ("english", none) ∧
      (Translate u (NewTranslator "A")).1 ≠ ".....OO.....") ∧
    (Translate u (NewTranslator "1") = ("english", none) ∧
      (Translate u (NewTranslator "1")).1 ≠ ".O.OOOO.....") ∧
    (Translate u (NewTranslator "0") = ("english", none) ∧
      (Translate u (NewTranslator "0")).1 ≠ ".O.OOO.OOO..") :=
  ⟨⟨rfl, show "english" ≠ "O....." by decide⟩,
    ⟨rfl, show "english" ≠ ".....OO....." by decide⟩,
    ⟨rfl, show "english" ≠ ".O.OOOO....." by decide⟩,
    ⟨rfl, show "english" ≠ ".O.OOO.OOO.." by decide⟩⟩

/-- C2, as stated, fails: the text "a b" is made of lowercase letters and a space,
has no leading or trailing space, and its first translation is rejected; the text
"a" is translated to "english" and then to "english" again, not back to "a". -/
theorem roundTrips_fails :
    ((∀ c ∈ "a b".data, isLower c = true ∨ c = ' ') ∧ noOuterSpace "a b" = true ∧
      Translate excerptTables (NewTranslator "a b") = ("", some notAlphanumericOrBraille) ∧
      roundTrips excerptTables "a b" = false) ∧
    ((∀ c ∈ "a".data, isLower c = true ∨ c = ' ') ∧ noOuterSpace "a" = true ∧
      roundTrips excerptTables "a" = false) := by
  decide

/-- C2, amended: for a text over the lowercase letters and the space, a text that
contains a space is rejected by `Translate` as neither alphanumeric nor Braille;
a text without a space is translated without error, and so is the result of that
translation. -/
theorem roundTrip_success_or_rejection (u : UnicodeTables) (s : String)
    (h : ∀ c ∈ s.data, isLower c = true ∨ c = ' ') :
    (' ' ∈ s.data →
      Translate u (NewTranslator s) = ("", some notAlphanumericOrBraille)) ∧
    (' ' ∉ s.data →
      (Translate u (NewTranslator s)).2 = none ∧
      (Translate u (NewTranslator (Translate u (NewTranslator s)).1)).2 = none) := by
  constructor
  · intro hsp
    have hc := space_not_classified u (NewTranslator s) hsp
    exact Translate_of_neither u (NewTranslator s) hc.1 hc.2
  · intro hsp
    have hlow : ∀ c ∈ s.data, isLower c = true := by
      intro c hc
      rcases h c hc with hl | hl
      · exact hl
      · exact absurd (hl ▸ hc) hsp
    have ha : isAlphanumeric u (NewTranslator s) = true := by
      rw [isAlphanumeric_iff]
      intro c hc
      exact Or.inl (lower_IsLetter u c (hlow c hc))
    cases hb : isBraille (NewTranslator s) with
    | true =>
      rw [Translate_of_braille u (NewTranslator s) hb]
      exact ⟨rfl, rfl⟩
    | false =>
      rw [Translate_of_alphanumeric u (NewTranslator s) hb ha]
      exact ⟨rfl, rfl⟩

theorem roundTrip_success_or_rejection_witness :
    ((∀ c ∈ "a b".data, isLower c = true ∨ c = ' ') ∧ ' ' ∈ "a b".data ∧
      Translate excerptTables (NewTranslator "a b") = ("", some notAlphanumericOrBraille)) ∧
    ((∀ c ∈ "ab".data, isLower c = true ∨ c = ' ') ∧ ' ' ∉ "ab".data ∧
      (Translate excerptTables (NewTranslator "ab")).2 = none ∧
      (Translate excerptTables
        (NewTranslator (Translate excerptTables (NewTranslator "ab")).1)).2 = none) :=
  ⟨⟨by decide, by decide,
      (roundTrip_success_or_rejection excerptTables "a b" (by decide)).1 (by decide)⟩,
    ⟨by decide, by decide,
      (roundTrip_success_or_rejection excerptTables "ab" (by decide)).2 (by decide)⟩⟩

/-- C3: on the Braille text ".....OO.....O.O...OO...." (CAPITAL_FOLLOWS, a, b, c)
the method `Translate` takes the Braille branch and returns the fixed word
"braille" without error, not "Abc". -/
theorem Translate_capital_cells (u : UnicodeTables) :
    isBraille (NewTranslator ".....OO.....O.O...OO....") = true ∧
    Translate u (NewTranslator ".....OO.....O.O...OO....") = ("braille", none) ∧
    (Translate u (NewTranslator ".....OO.....O.O...OO....")).1 ≠ "Abc" :=
  ⟨by decide, rfl, show "braille" ≠ "Abc" by decide⟩

/-- C4: the text "abc" is accepted as English, and the string that `Translate`
returns for it, "english", has seven bytes, which is one more than a multiple of
six. -/
theorem Translate_english_length (u : UnicodeTables) :
    dispatch u (NewTranslator "abc") = Branch.english ∧
    Translate u (NewTranslator "abc") = ("english", none) ∧
    len (Translate u (NewTranslator "abc")).1 % 6 = 1 :=
  ⟨rfl, rfl, show len "english" % 6 = 1 by decide⟩

/-- C5: the text ".O.OO" is made only of `O` and `.` and has five bytes, yet
`Translate` does not fail on it: it returns "braille" and no error. -/
theorem Translate_truncated_cell (u : UnicodeTables) :
    isBraille (NewTranslator ".O.OO") = true ∧
    len ".O.OO" % 6 = 5 ∧
    Translate u (NewTranslator ".O.OO") = ("braille", none) ∧
    (Translate u (NewTranslator ".O.OO")).2 = none :=
  ⟨by decide, by decide, rfl, rfl⟩

/-! ## Classification -/

/-- C6, as stated, fails: the text "Abc 123", made of ASCII letters, digits and a
space between two tokens, is classified as neither Braille nor English and
`Translate` fails on it with the "not Alphanumeric or Braille" error; the text "O",
a single ASCII letter, is classified as Braille, not as English. -/
theorem english_class_rejects_space :
    ("Abc 123".data ≠ [] ∧
      (∀ c ∈ "Abc 123".data, isAsciiLetter c = true ∨ isAsciiDigit c = true ∨ c = ' ') ∧
      dispatch excerptTables (NewTranslator "Abc 123") = Branch.neither ∧
      Translate excerptTables (NewTranslator "Abc 123") =
        ("", some notAlphanumericOrBraille)) ∧
    (isAsciiLetter 'O' = true ∧
      dispatch excerptTables (NewTranslator "O") = Branch.braille) := by
  decide

/-- C6, amended: the English class has no spaces. For a non-empty text of ASCII
letters, digits and spaces: if it contains a space, it is classified as neither and
`Translate` fails with the "not Alphanumeric or Braille" error; if it contains no
space, `Translate` does not fail, and the text is classified as English exactly
when one of its characters is not `O`. -/
theorem english_class_without_space (u : UnicodeTables) (t : Translator)
    (_hne : t.text.data ≠ [])
    (h : ∀ c ∈ t.text.data, isAsciiLetter c = true ∨ isAsciiDigit c = true ∨ c = ' ') :
    (' ' ∈ t.text.data →
      dispatch u t = Branch.neither ∧
      Translate u t = ("", some notAlphanumericOrBraille)) ∧
    (' ' ∉ t.text.data →
      (Translate u t).2 = none ∧
      (dispatch u t = Branch.english ↔ ∃ c ∈ t.text.data, c ≠ 'O')) := by
  constructor
  · intro hsp
    have hc := space_not_classified u t hsp
    exact ⟨(dispatch_neither_iff u t).2 hc, Translate_of_neither u t hc.1 hc.2⟩
  · intro hsp
    have ha : isAlphanumeric u t = true := by
      rw [isAlphanumeric_iff]
      intro c hc
      rcases h c hc with hl | hd | hs
      · exact Or.inl (asciiLetter_IsLetter u c hl)
      · exact Or.inr (asciiDigit_IsNumber u c hd)
      · exact absurd (hs ▸ hc) hsp
    constructor
    · cases hb : isBraille t with
      | true => rw [Translate_of_braille u t hb]
      | false => rw [Translate_of_alphanumeric u t hb ha]
    · rw [dispatch_english_iff, ← alphanumeric_not_braille_iff u t ha]
      exact ⟨fun hx => hx.1, fun hx => ⟨hx, ha⟩⟩

theorem english_class_without_space_witness :
    ("Abc 123".data ≠ [] ∧
      (∀ c ∈ "Abc 123".data, isAsciiLetter c = true ∨ isAsciiDigit c = true ∨ c = ' ') ∧
      ' ' ∈ "Abc 123".data ∧
      dispatch excerptTables (NewTranslator "Abc 123") = Branch.neither ∧
      Translate excerptTables (NewTranslator "Abc 123") =
        ("", some notAlphanumericOrBraille)) ∧
    ("Abc123".data ≠ [] ∧
      (∀ c ∈ "Abc123".data, isAsciiLetter c = true ∨ isAsciiDigit c = true ∨ c = ' ') ∧
      ' ' ∉ "Abc123".data ∧
      (Translate excerptTables (NewTranslator "Abc123")).2 = none ∧
      (dispatch excerptTables (NewTranslator "Abc123") = Branch.english ↔
        ∃ c ∈ "Abc123".data, c ≠ 'O')) :=
  ⟨⟨by decide, by decide, by decide,
      (english_class_without_space excerptTables (NewTranslator "Abc 123")
        (by decide) (by decide)).1 (by decide)⟩,
    ⟨by decide, by decide, by decide,
      (english_class_without_space excerptTables (NewTranslator "Abc123")
        (by decide) (by decide)).2 (by decide)⟩⟩

/-- C7: `Translate` returns an error exactly when the text is neither Braille
(every character `O` or `.`) nor alphanumeric (every character a letter or a
number); a call either returns no error, or returns the empty string with the "not
Alphanumeric or Braille" error, and never returns the "not Braille" error of
`toBraille` or the "not Alphanumeric" error of `toEnglish`. -/
theorem Translate_error_iff_unclassifiable (u : UnicodeTables) (t : Translator) :
    ((Translate u t).2 ≠ none ↔
      ¬ (∀ c ∈ t.text.data, c = 'O' ∨ c = '.') ∧
      ¬ (∀ c ∈ t.text.data, IsLetter u c = true ∨ IsNumber u c = true)) ∧
    ((Translate u t).2 = none ∨
      Translate u t =
        ("", some ("expected Alphanumeric or Braille input: " ++
          ErrArgumentsNotBrailleOrAlphanumeric))) ∧
    (Translate u t).2 ≠ some ("expected Braille input: " ++ ErrArgumentsNotBraille) ∧
    (Translate u t).2 ≠
      some ("expected Alphanumeric input: " ++ ErrArgumentsNotAlphanumeric) := by
  rw [← isBraille_iff, ← isAlphanumeric_iff]
  have hne1 : some notAlphanumericOrBraille ≠
      some ("expected Braille input: " ++ ErrArgumentsNotBraille) := by decide
  have hne2 : some notAlphanumericOrBraille ≠
      some ("expected Alphanumeric input: " ++ ErrArgumentsNotAlphanumeric) := by decide
  cases hb : isBraille t with
  | true =>
    rw [Translate_of_braille u t hb]
    simp
  | false =>
    cases ha : isAlphanumeric u t with
    | true =>
      rw [Translate_of_alphanumeric u t hb ha]
      simp
    | false =>
      rw [Translate_of_neither u t hb ha]
      refine ⟨by simp, Or.inr rfl, hne1, hne2⟩

/-- C8, as stated, fails: the empty text is classified as Braille, and `Translate`
on the empty text returns "braille" without error. -/
theorem isBraille_empty_text :
    isBraille (NewTranslator "") = true ∧
    dispatch excerptTables (NewTranslator "") = Branch.braille ∧
    Translate excerptTables (NewTranslator "") = ("braille", none) := by
  decide

/-- C8, amended: `isBraille` returns true exactly when every character of the text
is `O` or `.`, with no condition of non-emptiness; the empty text is classified as
Braille (so it does not take the English branch) and `Translate` does not fail on
it. -/
theorem isBraille_iff_every_character (u : UnicodeTables) (t : Translator) :
    (isBraille t = true ↔ ∀ c ∈ t.text.data, c = 'O' ∨ c = '.') ∧
    isBraille (NewTranslator "") = true ∧
    dispatch u (NewTranslator "") = Branch.braille ∧
    (Translate u (NewTranslator "")).2 = none :=
  ⟨isBraille_iff t, rfl, rfl, rfl⟩

/-- C9, as stated, fails: the text "O" is non-empty and made of an ASCII letter, and
`Translate` takes the Braille branch on it, not the English one. -/
theorem dispatch_O_is_braille :
    "O".data ≠ [] ∧
    (∀ c ∈ "O".data, c.toNat < 128 ∧ (isAsciiLetter c = true ∨ isAsciiDigit c = true)) ∧
    dispatch excerptTables (NewTranslator "O") = Branch.braille ∧
    dispatch excerptTables (NewTranslator "O") ≠ Branch.english ∧
    Translate excerptTables (NewTranslator "O") = toBraille (NewTranslator "O") := by
  decide

/-- C9, amended: `Translate` takes the English branch (it returns the result of
`toEnglish`) exactly when every character of the text is a letter or a number and
some character is not `O`; for an ASCII text, exactly when every character is in
`A`-`Z`, `a`-`z` or `0`-`9` and some character is not `O`. Such a text is
non-empty. -/
theorem dispatch_english_iff_alphanumeric (u : UnicodeTables) (t : Translator) :
    (dispatch u t = Branch.english ↔
      (∀ c ∈ t.text.data, IsLetter u c = true ∨ IsNumber u c = true) ∧
      ∃ c ∈ t.text.data, c ≠ 'O') ∧
    ((∀ c ∈ t.text.data, c.toNat < 128) →
      (dispatch u t = Branch.english ↔
        (∀ c ∈ t.text.data, isAsciiLetter c = true ∨ isAsciiDigit c = true) ∧
        ∃ c ∈ t.text.data, c ≠ 'O')) ∧
    (dispatch u t = Branch.english → Translate u t = toEnglish u t ∧ t.text.data ≠ []) := by
  have hmain : dispatch u t = Branch.english ↔
      (∀ c ∈ t.text.data, IsLetter u c = true ∨ IsNumber u c = true) ∧
      ∃ c ∈ t.text.data, c ≠ 'O' := by
    rw [dispatch_english_iff, ← isAlphanumeric_iff]
    constructor
    · rintro ⟨hb, ha⟩
      exact ⟨ha, (alphanumeric_not_braille_iff u t ha).1 hb⟩
    · rintro ⟨ha, hex⟩
      exact ⟨(alphanumeric_not_braille_iff u t ha).2 hex, ha⟩
  refine ⟨hmain, ?_, ?_⟩
  · intro hascii
    rw [hmain]
    have hall : (∀ c ∈ t.text.data, IsLetter u c = true ∨ IsNumber u c = true) ↔
        ∀ c ∈ t.text.data, isAsciiLetter c = true ∨ isAsciiDigit c = true := by
      constructor
      · intro hx c hc
        have hcx := hx c hc
        rw [IsLetter_ascii u c (hascii c hc), IsNumber_ascii u c (hascii c hc)] at hcx
        exact hcx
      · intro hx c hc
        rw [IsLetter_ascii u c (hascii c hc), IsNumber_ascii u c (hascii c hc)]
        exact hx c hc
    rw [hall]
  · intro hd
    constructor
    · rw [Translate_eq_dispatch, hd]
    · obtain ⟨c, hc, _⟩ := (hmain.1 hd).2
      exact List.ne_nil_of_mem hc

theorem dispatch_english_iff_alphanumeric_witness :
    (∀ c ∈ "Abc123".data, c.toNat < 128) ∧
    (dispatch excerptTables (NewTranslator "Abc123") = Branch.english ↔
      (∀ c ∈ "Abc123".data, isAsciiLetter c = true ∨ isAsciiDigit c = true) ∧
      ∃ c ∈ "Abc123".data, c ≠ 'O') ∧
    dispatch excerptTables (NewTranslator "Abc123") = Branch.english ∧
    Translate excerptTables (NewTranslator "Abc123") =
      toEnglish excerptTables (NewTranslator "Abc123") :=
  ⟨by decide,
    (dispatch_english_iff_alphanumeric excerptTables (NewTranslator "Abc123")).2.1 (by decide),
    by decide,
    ((dispatch_english_iff_alphanumeric excerptTables (NewTranslator "Abc123")).2.2
      (by decide)).1⟩

/-! ## Boundary -/

/-- C10, as stated, fails: for the single argument " ", whose trimmed text is empty,
`handleParams` returns the empty text and no error, and `main` prints what
`Translate` returns for the empty text. -/
theorem handleParams_blank_argument :
    TrimSpace (Join [" "] " ") = "" ∧
    handleParams ["translator", " "] = ("", none) ∧
    (handleParams ["translator", " "]).2 ≠ some ErrMissingArguments ∧
    main excerptTables ["translator", " "] = Outcome.printed "braille\n" := by
  decide

/-- C10, amended: `handleParams` reports `ErrMissingArguments` exactly when `os.Args`
has fewer than two entries, that is when no argument is supplied. For an argument
list with at least one argument whose joined and trimmed text is empty,
`handleParams` returns the empty text and no error, and `main` goes on to call
`Translate` on the empty text and reports its result. -/
theorem handleParams_missing_iff_no_argument (u : UnicodeTables) (prog : String)
    (args : List String) (hne : args ≠ []) (hblank : TrimSpace (Join args " ") = "") :
    (∀ osArgs : List String,
      (handleParams osArgs).2 = some ErrMissingArguments ↔ osArgs.length < 2) ∧
    handleParams (prog :: args) = ("", none) ∧
    (∀ c : String, Translate u (NewTranslator "") = (c, none) →
      main u (prog :: args) = Outcome.printed (c ++ "\n")) ∧
    (∀ c err : String, Translate u (NewTranslator "") = (c, some err) →
      main u (prog :: args) = Outcome.fatal (err ++ "\n")) := by
  have hp : handleParams (prog :: args) = ("", none) := by
    rw [handleParams_cons prog args hne, hblank]
  refine ⟨?_, hp, ?_, ?_⟩
  · intro osArgs
    unfold handleParams
    by_cases hlen : osArgs.length < 2
    · simp [hlen]
    · simp [hlen]
  · intro c hc
    simp only [main, hp, hc]
  · intro c err hc
    simp only [main, hp, hc]

theorem handleParams_missing_iff_no_argument_witness :
    [" "] ≠ [] ∧ TrimSpace (Join [" "] " ") = "" ∧
    handleParams ["translator", " "] = ("", none) ∧
    ((handleParams ["translator"]).2 = some ErrMissingArguments ↔
      ["translator"].length < 2) ∧
    main excerptTables ["translator", " "] = Outcome.printed ("braille" ++ "\n") :=
  ⟨by decide, by decide,
    (handleParams_missing_iff_no_argument excerptTables "translator" [" "]
      (by decide) (by decide)).2.1,
    (handleParams_missing_iff_no_argument excerptTables "translator" [" "]
      (by decide) (by decide)).1 ["translator"],
    (handleParams_missing_iff_no_argument excerptTables "translator" [" "]
      (by decide) (by decide)).2.2.1 "braille" (by decide)⟩

/-! ## Tables -/

theorem letterToBrailleMap_eq (text : String) :
    (NewTranslator text).letterToBrailleMap = (NewTranslator "").letterToBrailleMap := rfl

theorem numberToBrailleMap_eq (text : String) :
    (NewTranslator text).numberToBrailleMap = (NewTranslator "").numberToBrailleMap := rfl

/-- C12: in the letter table built by `NewTranslator` the 26 lowercase letters and the
space are keys, no key occurs twice, two of these 27 keys with the same cell are the
same key, the cells of `a`..`z` are pairwise distinct, the cell of the space is
"......", and no letter has the cell "......". -/
theorem letterTable_injective (text : String) :
    (mapKeys (NewTranslator text).letterToBrailleMap).Nodup ∧
    (∀ k ∈ lowercaseKeys ++ [" "],
      (mapIndex (NewTranslator text).letterToBrailleMap k).isSome = true) ∧
    (∀ k1 ∈ lowercaseKeys ++ [" "], ∀ k2 ∈ lowercaseKeys ++ [" "],
      mapIndex (NewTranslator text).letterToBrailleMap k1 =
        mapIndex (NewTranslator text).letterToBrailleMap k2 → k1 = k2) ∧
    (lowercaseKeys.map (mapIndex (NewTranslator text).letterToBrailleMap)).Nodup ∧
    mapIndex (NewTranslator text).letterToBrailleMap " " = some "......" ∧
    (∀ k ∈ lowercaseKeys,
      mapIndex (NewTranslator text).letterToBrailleMap k ≠ some "......") := by
  rw [letterToBrailleMap_eq text]
  decide

/-- C13: in the tables built by `NewTranslator`, for every digit `d` from 1 to 9 the
digit table has under the key of `d` the cell that the letter table has under the
`d`-th letter of the alphabet, the key "0" has the cell of the letter "j", and the
keys of the digit table are exactly the ten keys "0".."9", each once. -/
theorem digitTable_collides_with_letters (text : String) :
    (∀ d : Nat, 1 ≤ d → d ≤ 9 →
      (mapIndex (NewTranslator text).numberToBrailleMap (digitKey d)).isSome = true ∧
      mapIndex (NewTranslator text).numberToBrailleMap (digitKey d) =
        mapIndex (NewTranslator text).letterToBrailleMap (letterKey d)) ∧
    ((mapIndex (NewTranslator text).numberToBrailleMap "0").isSome = true ∧
      mapIndex (NewTranslator text).numberToBrailleMap "0" =
        mapIndex (NewTranslator text).letterToBrailleMap "j") ∧
    (∀ k : String, k ∈ mapKeys (NewTranslator text).numberToBrailleMap ↔ k ∈ digitKeys) ∧
    (mapKeys (NewTranslator text).numberToBrailleMap).Nodup ∧
    (mapKeys (NewTranslator text).numberToBrailleMap).length = 10 := by
  rw [letterToBrailleMap_eq text, numberToBrailleMap_eq text]
  refine ⟨?_, by decide, ?_, by decide, by decide⟩
  · intro d h1 h9
    interval_cases d <;> decide
  · intro k
    have hk : mapKeys (NewTranslator "").numberToBrailleMap = digitKeys := by decide
    rw [hk]

theorem digitTable_collides_with_letters_witness :
    digitKey 1 = "1" ∧ letterKey 1 = "a" ∧ digitKey 9 = "9" ∧ letterKey 9 = "i" ∧
    mapIndex (NewTranslator "42").numberToBrailleMap (digitKey 1) = some "O....." ∧
    mapIndex (NewTranslator "42").numberToBrailleMap (digitKey 1) =
      mapIndex (NewTranslator "42").letterToBrailleMap (letterKey 1) ∧
    mapIndex (NewTranslator "42").numberToBrailleMap (digitKey 9) =
      mapIndex (NewTranslator "42").letterToBrailleMap (letterKey 9) :=
  ⟨by decide, by decide, by decide, by decide, by decide,
    ((digitTable_collides_with_letters "42").1 1 (by decide) (by decide)).2,
    ((digitTable_collides_with_letters "42").1 9 (by decide) (by decide)).2⟩

/-- C14: in the letter table built by `NewTranslator` the key CAPITAL_FOLLOWS has the
cell ".....O" and the key NUMBER_FOLLOWS has the cell ".O.OOO"; the two cells differ,
and neither is the cell of a letter `a`..`z`, of the space, or of a digit `0`..`9`. -/
theorem control_cells_distinct (text : String) :
    mapIndex (NewTranslator text).letterToBrailleMap "CAPITAL_FOLLOWS" = some ".....O" ∧
    mapIndex (NewTranslator text).letterToBrailleMap "NUMBER_FOLLOWS" = some ".O.OOO" ∧
    mapIndex (NewTranslator text).letterToBrailleMap "CAPITAL_FOLLOWS" ≠
      mapIndex (NewTranslator text).letterToBrailleMap "NUMBER_FOLLOWS" ∧
    (∀ k ∈ lowercaseKeys ++ [" "],
      (mapIndex (NewTranslator text).letterToBrailleMap k).isSome = true ∧
      mapIndex (NewTranslator text).letterToBrailleMap k ≠ some ".....O" ∧
      mapIndex (NewTranslator text).letterToBrailleMap k ≠ some ".O.OOO") ∧
    (∀ k ∈ digitKeys,
      (mapIndex (NewTranslator text).numberToBrailleMap k).isSome = true ∧
      mapIndex (NewTranslator text).numberToBrailleMap k ≠ some ".....O" ∧
      mapIndex (NewTranslator text).numberToBrailleMap k ≠ some ".O.OOO") := by
  rw [letterToBrailleMap_eq text, numberToBrailleMap_eq text]
  decide

theorem isCell_iff (v : String) :
    isCell v = true ↔ v.data.length = 6 ∧ ∀ c ∈ v.data, c = 'O' ∨ c = '.' := by
  simp [isCell]

theorem utf8Len_of_cells (l : List Char) (h : ∀ c ∈ l, c = 'O' ∨ c = '.') :
    String.utf8Len l = l.length := by
  induction l with
  | nil => rfl
  | cons c rest ih =>
    have hrest := ih (fun x hx => h x (List.mem_cons_of_mem c hx))
    have hc : c.utf8Size = 1 := by
      rcases h c (List.mem_cons_self c rest) with hc | hc <;> rw [hc] <;> rfl
    rw [String.utf8Len_cons, hrest, hc, List.length_cons]

theorem len_of_isCell (v : String) (h : isCell v = true) : len v = 6 := by
  obtain ⟨h6, hall⟩ := (isCell_iff v).1 h
  show String.utf8Len v.data = 6
  rw [utf8Len_of_cells v.data hall, h6]

/-- A concatenation of well-formed cells is Braille and has six bytes per cell. -/
theorem join_of_cells (cells : List String) (h : ∀ v ∈ cells, isCell v = true) :
    isBraille (NewTranslator (String.join cells)) = true ∧
    len (String.join cells) = 6 * cells.length := by
  constructor
  · rw [isBraille_iff]
    intro c hc
    have hc2 : c ∈ (String.join cells).data := hc
    rw [String.data_join, List.mem_flatten] at hc2
    obtain ⟨l, hl, hcl⟩ := hc2
    obtain ⟨v, hv, rfl⟩ := List.mem_map.1 hl
    exact ((isCell_iff v).1 (h v hv)).2 c hcl
  · show String.utf8Len (String.join cells).data = 6 * cells.length
    rw [String.data_join]
    induction cells with
    | nil => rfl
    | cons v rest ih =>
      have hv : String.utf8Len v.data = 6 := len_of_isCell v (h v (List.mem_cons_self v rest))
      have hrest := ih (fun x hx => h x (List.mem_cons_of_mem v hx))
      rw [List.map_cons, List.flatten_cons, String.utf8Len_append, hv, hrest,
        List.length_cons]
      omega

theorem table_values_are_cells :
    ∀ v ∈ mapValues (NewTranslator "").letterToBrailleMap ++
        mapValues (NewTranslator "").numberToBrailleMap, isCell v = true := by
  decide

/-- C15: every value that `NewTranslator` stores in `letterToBrailleMap` and in
`numberToBrailleMap` has exactly six characters (and six bytes), each `O` or `.`;
every such value is accepted by `isBraille` and has a length that is a multiple of
six, and so is every concatenation of such values, whose length is six times the
number of cells. -/
theorem table_cells_well_formed (text : String) :
    (∀ v ∈ mapValues (NewTranslator text).letterToBrailleMap ++
        mapValues (NewTranslator text).numberToBrailleMap,
      v.data.length = 6 ∧ len v = 6 ∧ (∀ c ∈ v.data, c = 'O' ∨ c = '.') ∧
      isBraille (NewTranslator v) = true ∧ len v % 6 = 0) ∧
    (∀ cells : List String,
      (∀ v ∈ cells, v ∈ mapValues (NewTranslator text).letterToBrailleMap ++
        mapValues (NewTranslator text).numberToBrailleMap) →
      isBraille (NewTranslator (String.join cells)) = true ∧
      len (String.join cells) = 6 * cells.length ∧
      len (String.join cells) % 6 = 0) := by
  rw [letterToBrailleMap_eq text, numberToBrailleMap_eq text]
  constructor
  · intro v hv
    have hcell := table_values_are_cells v hv
    obtain ⟨h6, hall⟩ := (isCell_iff v).1 hcell
    have hlen := len_of_isCell v hcell
    refine ⟨h6, hlen, hall, (isBraille_iff (NewTranslator v)).2 hall, ?_⟩
    rw [hlen]
  · intro cells hcells
    obtain ⟨hb, hlen⟩ := join_of_cells cells (fun v hv => table_values_are_cells v (hcells v hv))
    refine ⟨hb, hlen, ?_⟩
    rw [hlen]
    omega

theorem table_cells_well_formed_witness :
    (∀ v ∈ [".....O", "O.....", ".O.OOO", ".OOO.."],
      v ∈ mapValues (NewTranslator "A0").letterToBrailleMap ++
        mapValues (NewTranslator "A0").numberToBrailleMap) ∧
    String.join [".....O", "O.....", ".O.OOO", ".OOO.."] = ".....OO......O.OOO.OOO.." ∧
    isBraille (NewTranslator (String.join [".....O", "O.....", ".O.OOO", ".OOO.."])) = true ∧
    len (String.join [".....O", "O.....", ".O.OOO", ".OOO.."]) =
      6 * [".....O", "O.....", ".O.OOO", ".OOO.."].length ∧
    len (String.join [".....O", "O.....", ".O.OOO", ".OOO.."]) % 6 = 0 :=
  ⟨by decide, by decide,
    (table_cells_well_formed "A0").2 [".....O", "O.....", ".O.OOO", ".OOO.."] (by decide)⟩

/-! ## The placeholder results -/

/-- C16: on every text made only of `O` and `.` (the empty text and "O" included)
`Translate` returns "braille" and no error, also when the text is alphanumeric as
well; on every other text made only of letters and numbers it returns "english" and
no error; a successful result is always one of these two words. -/
theorem Translate_output_fixed (u : UnicodeTables) (t : Translator) :
    ((∀ c ∈ t.text.data, c = 'O' ∨ c = '.') → Translate u t = ("braille", none)) ∧
    (¬ (∀ c ∈ t.text.data, c = 'O' ∨ c = '.') →
      (∀ c ∈ t.text.data, IsLetter u c = true ∨ IsNumber u c = true) →
      Translate u t = ("english", none)) ∧
    (isBraille t = true → isAlphanumeric u t = true → Translate u t = toBraille t) ∧
    ((Translate u t).2 = none →
      (Translate u t).1 = "braille" ∨ (Translate u t).1 = "english") ∧
    Translate u (NewTranslator "") = ("braille", none) ∧
    (isAlphanumeric u (NewTranslator "O") = true ∧
      Translate u (NewTranslator "O") = ("braille", none)) := by
  refine ⟨?_, ?_, ?_, ?_, rfl, rfl, rfl⟩
  · intro hb
    exact Translate_of_braille u t ((isBraille_iff t).2 hb)
  · intro hb ha
    have hb2 : isBraille t = false := by
      rw [← Bool.not_eq_true, isBraille_iff]
      exact hb
    exact Translate_of_alphanumeric u t hb2 ((isAlphanumeric_iff u t).2 ha)
  · intro hb _
    simp [Translate, hb]
  · cases hb : isBraille t with
    | true =>
      rw [Translate_of_braille u t hb]
      exact fun _ => Or.inl rfl
    | false =>
      cases ha : isAlphanumeric u t with
      | true =>
        rw [Translate_of_alphanumeric u t hb ha]
        exact fun _ => Or.inr rfl
      | false =>
        rw [Translate_of_neither u t hb ha]
        intro h
        exact Option.noConfusion h

theorem Translate_output_fixed_witness :
    ((∀ c ∈ (NewTranslator "O.O").text.data, c = 'O' ∨ c = '.') ∧
      Translate excerptTables (NewTranslator "O.O") = ("braille", none)) ∧
    (¬ (∀ c ∈ (NewTranslator "Abc123").text.data, c = 'O' ∨ c = '.') ∧
      (∀ c ∈ (NewTranslator "Abc123").text.data,
        IsLetter excerptTables c = true ∨ IsNumber excerptTables c = true) ∧
      Translate excerptTables (NewTranslator "Abc123") = ("english", none)) ∧
    (isBraille (NewTranslator "OO") = true ∧
      isAlphanumeric excerptTables (NewTranslator "OO") = true ∧
      Translate excerptTables (NewTranslator "OO") = toBraille (NewTranslator "OO")) :=
  ⟨⟨by decide, (Translate_output_fixed excerptTables (NewTranslator "O.O")).1 (by decide)⟩,
    ⟨by decide, by decide,
      (Translate_output_fixed excerptTables (NewTranslator "Abc123")).2.1
        (by decide) (by decide)⟩,
    ⟨by decide, by decide,
      (Translate_output_fixed excerptTables (NewTranslator "OO")).2.2.1
        (by decide) (by decide)⟩⟩

/-! ## Joining and trimming the arguments -/

theorem Join_cons_of_ne_nil (a : String) (l : List String) (sep : String) (h : l ≠ []) :
    Join (a :: l) sep = a ++ sep ++ Join l sep := by
  cases l with
  | nil => exact absurd rfl h
  | cons b rest => rfl

theorem intercalate_go_eq (sep : String) (l : List String) (a acc : String) :
    String.intercalate.go acc sep (a :: l) = acc ++ sep ++ Join (a :: l) sep := by
  induction l generalizing a acc with
  | nil => rfl
  | cons b rest ih =>
    rw [String.intercalate.go, ih b (acc ++ sep ++ a), Join_cons_of_ne_nil a (b :: rest) sep
      (List.cons_ne_nil b rest)]
    simp only [String.append_assoc]

/-- The model of `strings.Join` is the library's `String.intercalate`. -/
theorem Join_eq_intercalate (l : List String) (sep : String) :
    Join l sep = sep.intercalate l := by
  cases l with
  | nil => rfl
  | cons a rest =>
    cases rest with
    | nil => rfl
    | cons b rest2 =>
      rw [String.intercalate, intercalate_go_eq sep rest2 b a,
        Join_cons_of_ne_nil a (b :: rest2) sep (List.cons_ne_nil b rest2)]

theorem head?_dropWhile_IsSpace (l : List Char) (c : Char)
    (h : (l.dropWhile IsSpace).head? = some c) : IsSpace c = false := by
  have hnot := List.head?_dropWhile_not IsSpace l
  rw [h] at hnot
  exact hnot

/-- What `TrimSpace` returns: the text is a run of white space, then the result, then
a run of white space, and the result neither starts nor ends with white space. -/
theorem TrimSpace_spec (s : String) :
    ∃ pre post : List Char,
      s.data = pre ++ (TrimSpace s).data ++ post ∧
      (∀ c ∈ pre, IsSpace c = true) ∧ (∀ c ∈ post, IsSpace c = true) ∧
      (∀ c, (TrimSpace s).data.head? = some c → IsSpace c = false) ∧
      (∀ c, (TrimSpace s).data.getLast? = some c → IsSpace c = false) := by
  have hm : (s.data.dropWhile IsSpace) =
      ((s.data.dropWhile IsSpace).reverse.dropWhile IsSpace).reverse ++
        ((s.data.dropWhile IsSpace).reverse.takeWhile IsSpace).reverse := by
    rw [← List.reverse_append, List.takeWhile_append_dropWhile, List.reverse_reverse]
  refine ⟨s.data.takeWhile IsSpace,
    ((s.data.dropWhile IsSpace).reverse.takeWhile IsSpace).reverse, ?_, ?_, ?_, ?_, ?_⟩
  · show s.data = s.data.takeWhile IsSpace ++
      ((s.data.dropWhile IsSpace).reverse.dropWhile IsSpace).reverse ++ _
    rw [List.append_assoc, ← hm, List.takeWhile_append_dropWhile]
  · intro c hc
    exact List.mem_takeWhile_imp hc
  · intro c hc
    exact List.mem_takeWhile_imp (List.mem_reverse.1 hc)
  · intro c hc
    have hc2 : (((s.data.dropWhile IsSpace).reverse.dropWhile IsSpace).reverse).head? =
        some c := hc
    apply head?_dropWhile_IsSpace s.data c
    rw [hm, List.head?_append, hc2]
    rfl
  · intro c hc
    have hc2 : (((s.data.dropWhile IsSpace).reverse.dropWhile IsSpace).reverse).getLast? =
        some c := hc
    rw [List.getLast?_reverse] at hc2
    exact head?_dropWhile_IsSpace _ c hc2

/-- C11: without a user-supplied argument `handleParams` returns the empty string and
`ErrMissingArguments`; with at least one it returns no error and a text `r` such that
the arguments joined with one space between consecutive arguments are a run of white
space, then `r`, then a run of white space, where `r` neither starts nor ends with
white space. -/
theorem handleParams_join_trim (prog : String) (args : List String) :
    handleParams [prog] = ("", some ErrMissingArguments) ∧
    (args ≠ [] →
      (handleParams (prog :: args)).2 = none ∧
      ∃ pre post : List Char,
        (" ".intercalate args).data = pre ++ (handleParams (prog :: args)).1.data ++ post ∧
        (∀ c ∈ pre, IsSpace c = true) ∧ (∀ c ∈ post, IsSpace c = true) ∧
        (∀ c, (handleParams (prog :: args)).1.data.head? = some c → IsSpace c = false) ∧
        (∀ c, (handleParams (prog :: args)).1.data.getLast? = some c →
          IsSpace c = false)) := by
  refine ⟨rfl, ?_⟩
  intro hne
  rw [handleParams_cons prog args hne, ← Join_eq_intercalate]
  exact ⟨rfl, TrimSpace_spec (Join args " ")⟩

theorem handleParams_join_trim_witness :
    [" Abc", "123 "] ≠ [] ∧
    " ".intercalate [" Abc", "123 "] = " Abc 123 " ∧
    handleParams ["translator", " Abc", "123 "] = ("Abc 123", none) ∧
    ∃ pre post : List Char,
      (" ".intercalate [" Abc", "123 "]).data =
        pre ++ (handleParams ["translator", " Abc", "123 "]).1.data ++ post ∧
      (∀ c ∈ pre, IsSpace c = true) ∧ (∀ c ∈ post, IsSpace c = true) ∧
      (∀ c, (handleParams ["translator", " Abc", "123 "]).1.data.head? = some c →
        IsSpace c = false) ∧
      (∀ c, (handleParams ["translator", " Abc", "123 "]).1.data.getLast? = some c →
        IsSpace c = false) :=
  ⟨by decide, by decide, by decide,
    ((handleParams_join_trim "translator" [" Abc", "123 "]).2 (by decide)).2⟩

/-! ## Several arguments -/

theorem dropWhile_keeps_from_nonspace (p : List Char) (x : Char) (q : List Char)
    (hx : IsSpace x = false) :
    ∃ p' : List Char, (p ++ x :: q).dropWhile IsSpace = p' ++ x :: q := by
  induction p with
  | nil =>
    refine ⟨[], ?_⟩
    simp [List.dropWhile_cons, hx]
  | cons a rest ih =>
    cases ha : IsSpace a with
    | true =>
      obtain ⟨p', hp'⟩ := ih
      refine ⟨p', ?_⟩
      rw [List.cons_append, List.dropWhile_cons_of_pos ha, hp']
    | false =>
      refine ⟨a :: rest, ?_⟩
      rw [List.cons_append, List.dropWhile_cons_of_neg (by simp [ha])]

/-- Trimming keeps everything between two characters that are not white space. -/
theorem TrimSpace_keeps_between (s : String) (p mid q : List Char) (x y : Char)
    (hs : s.data = p ++ x :: (mid ++ y :: q))
    (hx : IsSpace x = false) (hy : IsSpace y = false) :
    ∃ p' q' : List Char, (TrimSpace s).data = p' ++ x :: (mid ++ y :: q') := by
  obtain ⟨p', hp'⟩ := dropWhile_keeps_from_nonspace p x (mid ++ y :: q) hx
  have hrev : (p' ++ x :: (mid ++ y :: q)).reverse =
      q.reverse ++ y :: (p' ++ x :: mid).reverse := by
    simp
  obtain ⟨q'', hq''⟩ := dropWhile_keeps_from_nonspace q.reverse y (p' ++ x :: mid).reverse hy
  refine ⟨p', q''.reverse, ?_⟩
  show ((s.data.dropWhile IsSpace).reverse.dropWhile IsSpace).reverse = _
  rw [hs, hp', hrev, hq'']
  simp

theorem Join_data_of_mem (l : List String) (sep a : String) (h : a ∈ l) :
    ∃ P R : List Char, (Join l sep).data = P ++ a.data ++ R := by
  induction l with
  | nil => exact absurd h (List.not_mem_nil a)
  | cons b rest ih =>
    cases rest with
    | nil =>
      have hab : a = b := by simpa using h
      refine ⟨[], [], ?_⟩
      rw [hab]
      simp [Join]
    | cons c rest2 =>
      rw [Join_cons_of_ne_nil b (c :: rest2) sep (List.cons_ne_nil c rest2)]
      rcases List.mem_cons.1 h with hab | hmem
      · refine ⟨[], sep.data ++ (Join (c :: rest2) sep).data, ?_⟩
        rw [hab]
        simp
      · obtain ⟨P, R, hPR⟩ := ih hmem
        refine ⟨b.data ++ sep.data ++ P, R, ?_⟩
        rw [String.data_append, String.data_append, hPR]
        simp

theorem Join_data_of_two (A : List String) (a1 : String) (rest : List String) (a2 : String)
    (h2 : a2 ∈ rest) :
    ∃ P Q R : List Char,
      (Join (A ++ a1 :: rest) " ").data = P ++ a1.data ++ ' ' :: (Q ++ a2.data ++ R) := by
  have hrest : rest ≠ [] := List.ne_nil_of_mem h2
  induction A with
  | nil =>
    obtain ⟨Q, R, hQR⟩ := Join_data_of_mem rest " " a2 h2
    refine ⟨[], Q, R, ?_⟩
    rw [List.nil_append, Join_cons_of_ne_nil a1 rest " " hrest, String.data_append,
      String.data_append, hQR]
    simp
  | cons b A' ih =>
    obtain ⟨P, Q, R, hPQR⟩ := ih
    refine ⟨b.data ++ ' ' :: P, Q, R, ?_⟩
    have hne : A' ++ a1 :: rest ≠ [] := by simp
    rw [List.cons_append, Join_cons_of_ne_nil b (A' ++ a1 :: rest) " " hne, String.data_append,
      String.data_append, hPQR]
    simp

theorem two_nonspace_arguments (args : List String)
    (h : 2 ≤ (args.filter hasNonSpace).length) :
    ∃ (A : List String) (a1 : String) (rest : List String) (a2 : String),
      args = A ++ a1 :: rest ∧ hasNonSpace a1 = true ∧ a2 ∈ rest ∧ hasNonSpace a2 = true := by
  induction args with
  | nil => simp at h
  | cons a l ih =>
    cases ha : hasNonSpace a with
    | true =>
      rw [List.filter_cons_of_pos ha, List.length_cons] at h
      have hpos : 0 < (l.filter hasNonSpace).length := by omega
      obtain ⟨a2, ha2⟩ := List.exists_mem_of_length_pos hpos
      have hmem := List.mem_filter.1 ha2
      exact ⟨[], a, l, a2, rfl, ha, hmem.1, hmem.2⟩
    | false =>
      rw [List.filter_cons_of_neg (by simp [ha])] at h
      obtain ⟨A, a1, rest, a2, hargs, h1, hmem, h2⟩ := ih h
      exact ⟨a :: A, a1, rest, a2, by rw [hargs, List.cons_append], h1, hmem, h2⟩

theorem nonspace_split (a : String) (h : hasNonSpace a = true) :
    ∃ (v w : List Char) (x : Char), a.data = v ++ x :: w ∧ IsSpace x = false := by
  simp only [hasNonSpace, List.any_eq_true, Bool.not_eq_true'] at h
  obtain ⟨x, hx, hsp⟩ := h
  obtain ⟨v, w, hvw⟩ := List.append_of_mem hx
  exact ⟨v, w, x, hvw, hsp⟩

/-- With two arguments that are not blank, the text of `handleParams` has a space
between two characters that are not white space. -/
theorem handleParams_interior_space (prog : String) (args : List String)
    (h : 2 ≤ (args.filter hasNonSpace).length) :
    ∃ a b : List Char, (handleParams (prog :: args)).1.data = a ++ ' ' :: b ∧
      (∃ x ∈ a, IsSpace x = false) ∧ (∃ y ∈ b, IsSpace y = false) := by
  obtain ⟨A, a1, rest, a2, hargs, h1, hmem, h2⟩ := two_nonspace_arguments args h
  obtain ⟨v1, w1, x, hx, hxs⟩ := nonspace_split a1 h1
  obtain ⟨v2, w2, y, hy, hys⟩ := nonspace_split a2 h2
  obtain ⟨P, Q, R, hPQR⟩ := Join_data_of_two A a1 rest a2 hmem
  have hne : args ≠ [] := by
    rw [hargs]
    simp
  have hdata : (Join args " ").data =
      (P ++ v1) ++ x :: ((w1 ++ ' ' :: (Q ++ v2)) ++ y :: (w2 ++ R)) := by
    rw [hargs, hPQR, hx, hy]
    simp
  obtain ⟨p', q', htrim⟩ :=
    TrimSpace_keeps_between (Join args " ") (P ++ v1) (w1 ++ ' ' :: (Q ++ v2)) (w2 ++ R) x y
      hdata hxs hys
  refine ⟨p' ++ x :: w1, Q ++ v2 ++ y :: q', ?_, ⟨x, by simp, hxs⟩, ⟨y, by simp, hys⟩⟩
  rw [handleParams_cons prog args hne]
  show (TrimSpace (Join args " ")).data = _
  rw [htrim]
  simp

/-- C17: when at least two arguments each contain a character that is not white
space, `handleParams` returns without error a text with a space between two
characters that are not white space, `Translate` fails on that text with the "not
Alphanumeric or Braille" error and `main` ends with that error; more generally
`Translate` fails with that error on every text that contains a space. -/
theorem multi_word_invocation_fails (u : UnicodeTables) (prog : String) (args : List String)
    (h : 2 ≤ (args.filter hasNonSpace).length) :
    (handleParams (prog :: args)).2 = none ∧
    (∃ a b : List Char, (handleParams (prog :: args)).1.data = a ++ ' ' :: b ∧
      (∃ x ∈ a, IsSpace x = false) ∧ (∃ y ∈ b, IsSpace y = false)) ∧
    Translate u (NewTranslator (handleParams (prog :: args)).1) =
      ("", some ("expected Alphanumeric or Braille input: " ++
        ErrArgumentsNotBrailleOrAlphanumeric)) ∧
    main u (prog :: args) =
      Outcome.fatal ("expected Alphanumeric or Braille input: " ++
        ErrArgumentsNotBrailleOrAlphanumeric ++ "\n") ∧
    (∀ t : Translator, ' ' ∈ t.text.data →
      Translate u t =
        ("", some ("expected Alphanumeric or Braille input: " ++
          ErrArgumentsNotBrailleOrAlphanumeric))) := by
  have hgen : ∀ t : Translator, ' ' ∈ t.text.data →
      Translate u t = ("", some notAlphanumericOrBraille) := by
    intro t ht
    have hc := space_not_classified u t ht
    exact Translate_of_neither u t hc.1 hc.2
  have hne : args ≠ [] := by
    intro hnil
    rw [hnil] at h
    simp at h
  have hp : handleParams (prog :: args) = (TrimSpace (Join args " "), none) :=
    handleParams_cons prog args hne
  obtain ⟨a, b, hab, hx, hy⟩ := handleParams_interior_space prog args h
  have hsp : ' ' ∈ (NewTranslator (handleParams (prog :: args)).1).text.data := by
    show ' ' ∈ (handleParams (prog :: args)).1.data
    rw [hab]
    simp
  have htr := hgen (NewTranslator (handleParams (prog :: args)).1) hsp
  refine ⟨by rw [hp], ⟨a, b, hab, hx, hy⟩, htr, ?_, hgen⟩
  rw [hp] at htr
  simp only [main, hp, htr]
  rfl

theorem multi_word_invocation_fails_witness :
    2 ≤ (["Hello", "world"].filter hasNonSpace).length ∧
    handleParams ["translator", "Hello", "world"] = ("Hello world", none) ∧
    Translate excerptTables (NewTranslator "Hello world") =
      ("", some ("expected Alphanumeric or Braille input: " ++
        ErrArgumentsNotBrailleOrAlphanumeric)) ∧
    main excerptTables ["translator", "Hello", "world"] =
      Outcome.fatal ("expected Alphanumeric or Braille input: " ++
        ErrArgumentsNotBrailleOrAlphanumeric ++ "\n") :=
  ⟨by decide, by decide,
    (multi_word_invocation_fails excerptTables "translator" ["Hello", "world"]
      (by decide)).2.2.1,
    (multi_word_invocation_fails excerptTables "translator" ["Hello", "world"]
      (by decide)).2.2.2.1⟩

end BrailleTranslator
